import Mathlib

/-
Verification of the sen5x driver (a Rust driver for the Sensirion SEN5x
particulate-matter/gas sensor over I2C).

Shallow embedding:
* `crc` embeds `crc` from src/crc.rs (CRC-8, poly 0x31, init 0xFF), with
  bytes as `Nat` and the u8 wraparound made explicit by `% 256`.
* The driver session `Sen5x` (src/sen5x.rs) carries the `is_running` flag
  and the device `address`; the I2C handle and the delay source are
  externalised into a `BusCycle` value describing the outcome of the one
  write and the one read a public operation performs.
* Each public operation of `impl Sen5x` becomes a function from the session
  state and a `BusCycle` to a `Result`-like `Except` paired with the state
  after the call.  Operations whose Rust bodies never assign to `self`
  return the state unchanged by construction, mirroring the source.
* `f32` arithmetic in `measurement` is embedded exactly over `ℚ`:
  a `u16` converts to f32 exactly (it is below 2^24) and IEEE division
  rounds the exact rational quotient to nearest/even, so
  `w as f32 / scale as f32` is `roundF32 (w / scale)` with `roundF32`
  the round-to-nearest-even to 24 significand bits (all quotients that
  occur lie far inside the normal range of f32).
-/

namespace Sen5xProof

/-- One round of the inner loop of `crc` (src/crc.rs lines 5-11): on a u8
state, if the high bit is clear shift left, else shift left and XOR 0x31. -/
def crcIter (c : Nat) : Nat :=
  if c &&& 0x80 == 0 then (c <<< 1) % 256 else ((c <<< 1) % 256) ^^^ 0x31

/-- Iterates the inner loop of `crc` a given number of rounds. -/
def crcRounds : Nat → Nat → Nat
  | 0, c => c
  | n+1, c => crcRounds n (crcIter c)

/-- Embeds `crc` from src/crc.rs: running value starts at 0xFF; each input byte is
XORed in and followed by 8 rounds of the inner loop. -/
def crc (data : List Nat) : Nat :=
  data.foldl (fun c b => crcRounds 8 (c ^^^ b)) 0xFF

/-- One iteration as the specification words it: "if the high bit is set,
shift left and XOR with 0x31, else shift left" (stated via `testBit` and
multiplication by 2, to be compared with the source form `crcIter`). -/
def crcSpecIter (c : Nat) : Nat :=
  if Nat.testBit c 7 then ((2 * c) % 256) ^^^ 0x31 else (2 * c) % 256

/-- Iterates the spec-form round. -/
def crcSpecRounds : Nat → Nat → Nat
  | 0, c => c
  | n+1, c => crcSpecRounds n (crcSpecIter c)

/-- The checksum as the specification describes it: CRC-8, initial value
0xFF, and for each input byte "XOR into the running value; then for 8
iterations, if the high bit is set, shift left and XOR with 0x31, else
shift left". -/
def crcSpec (data : List Nat) : Nat :=
  data.foldl (fun c b => crcSpecRounds 8 (c ^^^ b)) 0xFF

/-! An exact model of the f32 arithmetic used by `measurement`. -/

/-- Round-half-even of the rational `nn / d` (for `d > 0`): the nearest
integer, ties to the even one. -/
def rhe (nn d : Nat) : Nat :=
  let q := nn / d
  let r := nn % d
  if 2 * r < d then q
  else if d < 2 * r then q + 1
  else if q % 2 = 0 then q else q + 1

/-- Helper for `leastPow`: fuelled search for the least `k` with `d ≤ m * 2^k`. -/
def leastPowAux : Nat → Nat → Nat → Nat
  | 0, _, _ => 0
  | fuel+1, m, d => if d ≤ m then 0 else leastPowAux fuel (2 * m) d + 1

/-- The least `k` with `d ≤ n * 2^k` (searched up to `k = 64`, which covers
the whole f32 range used here). -/
def leastPow (n d : Nat) : Nat := leastPowAux 64 n d

/-- The binary exponent of the positive rational `n / d`: the `e` with
`2^e ≤ n / d < 2^(e+1)`. -/
def f32exp (n d : Nat) : Int :=
  if d ≤ n then (Nat.log2 (n / d) : Int) else -(leastPow n d : Int)

/-- Round a nonnegative rational in the normal range of f32 to the nearest
f32 value (24 significand bits, ties to even), returned as a rational. -/
def roundF32 (q : ℚ) : ℚ :=
  if q ≤ 0 then 0
  else
    let n := q.num.toNat
    let d := q.den
    let e := f32exp n d
    if e ≤ 23 then
      let s := (23 - e).toNat
      (rhe (n * 2 ^ s) d : ℚ) / (2 ^ s : ℚ)
    else
      let s := (e - 23).toNat
      (rhe n (d * 2 ^ s) : ℚ) * (2 ^ s : ℚ)

/-- The f32 value of `w as f32 / scale as f32` for a u16 `w`: the conversion
is exact and the division rounds the exact quotient to nearest/even. -/
def f32div (w scale : Nat) : ℚ := roundF32 ((w : ℚ) / (scale : ℚ))

/-! Data model (src/types.rs). -/

/-- Embeds `Sen5xData` from src/types.rs: the converted measurement, eight f32
fields modelled as exact rationals ranging over representable f32 values. -/
structure Sen5xData where
  pm1_0 : ℚ
  pm2_5 : ℚ
  pm4_0 : ℚ
  pm10_0 : ℚ
  humidity : ℚ
  temperature : ℚ
  voc_index : ℚ
  nox_index : ℚ
  deriving DecidableEq

/-- Embeds `Sen5xDataRaw` from src/types.rs: the unscaled measurement, eight u16
words modelled as `Nat` (each kept below 2^16 by construction). -/
structure Sen5xDataRaw where
  pm1_0 : Nat
  pm2_5 : Nat
  pm4_0 : Nat
  pm10_0 : Nat
  temperature : Nat
  humidity : Nat
  voc_index : Nat
  nox_index : Nat
  deriving DecidableEq

/-- Modelled from the spec: the error taxonomy of src/lib.rs (the `Error`
enum is declared in a file not present here).  `I2c` carries the
transport's own error value; `Crc` is a checksum mismatch. -/
inductive Error (E : Type) where
  | I2c (e : E)
  | Crc
  deriving DecidableEq

/-- Modelled from the spec: the command enumeration of src/commands.rs (a
file not present here).  Its opcode/delay/allowed-while-running table has
no observable effect in this embedding: the opcode bytes only feed the bus
write and the delay only blocks. -/
inductive Command where
  | StartMeasurement
  | Reinit
  | GetSerialNumber
  | ReadProductName
  | ReadFirmwareVersion
  | ReadMeasurement
  | GetReadDataReadyStatus
  deriving DecidableEq

/-- The externally supplied behaviour of the bus for the single
write/delay/read cycle a public operation performs: whether the opcode
write fails, and whether the read fails or yields bytes (byte `i` of the
device's response is `f i`). -/
structure BusCycle (E : Type) where
  writeErr : Option E
  readBytes : Except E (Nat → Nat)

/-- The driver session state (src/sen5x.rs struct `Sen5x`), without the
exclusively owned bus and delay handles, which the `BusCycle` argument of
each operation stands for. -/
structure Sen5x where
  is_running : Bool
  address : Nat
  deriving DecidableEq

/-- Embeds `_SEN5X_I2C_ADDRESS` from src/sen5x.rs. -/
def SEN5X_I2C_ADDRESS : Nat := 0x69

/-- Embeds `Sen5x::new`: default address, not running. -/
def Sen5x.new : Sen5x := { is_running := false, address := SEN5X_I2C_ADDRESS }

/-- Embeds `Sen5x::with_i2c_address`: custom address, not running. -/
def Sen5x.with_i2c_address (address : Nat) : Sen5x :=
  { is_running := false, address := address }

/-! Driver operations (src/sen5x.rs).

The Rust methods take `&mut self`; here each returns its result paired with
the session state after the call. `write_command` and `delayed_read_cmd`
never assign to `self`, so they return only the `Except` result. -/

/-- Embeds `write_command` (src/sen5x.rs lines 163-168): resolve the command tuple,
write the big-endian opcode to `self.address` (mapping a bus failure to
`Error::I2c`), then block for the command's delay.  The opcode bytes and
the delay have no further observable effect, so the outcome is exactly the
bus write outcome. -/
def write_command {E : Type} (s : Sen5x) (bus : BusCycle E) (cmd : Command) :
    Except (Error E) Unit :=
  match bus.writeErr with
  | some e => .error (.I2c e)
  | none => .ok ()

/-- Embeds `delayed_read_cmd` (src/sen5x.rs lines 171-175): `write_command(cmd)?`,
then read `data.len()` bytes with `read_words_with_crc` — whose result
(transport or CRC failure) the source binds to `_` and DISCARDS, always
returning `Ok(())`.  On a successful read the buffer holds the device's
bytes; on a failed read it keeps its caller-initialised contents. -/
def delayed_read_cmd {E : Type} (s : Sen5x) (bus : BusCycle E) (cmd : Command)
    (data : List Nat) : Except (Error E) (List Nat) :=
  match write_command s bus cmd with
  | .error e => .error e
  | .ok _ =>
    match bus.readBytes with
    | .error _ => .ok data
    | .ok f => .ok ((List.range data.length).map f)

/-- Embeds `serial_number` (src/sen5x.rs lines 64-75): 9-byte read, then assemble
the 48-bit value from bytes 0,1,3,4,6,7 big-endian.  The source performs
no checksum comparison of its own in this method. -/
def serial_number {E : Type} (s : Sen5x) (bus : BusCycle E) :
    Except (Error E) Nat × Sen5x :=
  (match delayed_read_cmd s bus .GetSerialNumber (List.replicate 9 0) with
   | .error e => .error e
   | .ok buf =>
     .ok (buf.getD 0 0 <<< 40 ||| buf.getD 1 0 <<< 32 ||| buf.getD 3 0 <<< 24 |||
          buf.getD 4 0 <<< 16 ||| buf.getD 6 0 <<< 8 ||| buf.getD 7 0), s)

/-- The validation loop of `product_name` (src/sen5x.rs lines 83-92),
turned from an early-returning `for` over indices `i, i+1, ..., i+k-1` into
recursion on the remaining count `k`: take each triple's high, low and
checksum byte, abort at the first mismatch, otherwise collect the two data
bytes. -/
def collect_bytes (buf : List Nat) : Nat → Nat → Option (List Nat)
  | _, 0 => some []
  | i, k+1 =>
    let hi := buf.getD (i * 3) 0
    let lo := buf.getD (i * 3 + 1) 0
    let ck := buf.getD (i * 3 + 2) 0
    if crc [hi, lo] = ck then
      match collect_bytes buf (i+1) k with
      | some rest => some (hi :: lo :: rest)
      | none => none
    else none

/-- Embeds `product_name` (src/sen5x.rs lines 78-95): 48-byte read, 16 validated
triples, 32 data bytes. -/
def product_name {E : Type} (s : Sen5x) (bus : BusCycle E) :
    Except (Error E) (List Nat) × Sen5x :=
  (match delayed_read_cmd s bus .ReadProductName (List.replicate 48 0) with
   | .error e => .error e
   | .ok buf =>
     match collect_bytes buf 0 16 with
     | some bytes => .ok bytes
     | none => .error .Crc, s)

/-- Embeds `read_firmware_version` (src/sen5x.rs lines 98-106): 3-byte read, one
validated triple, return the first byte. -/
def read_firmware_version {E : Type} (s : Sen5x) (bus : BusCycle E) :
    Except (Error E) Nat × Sen5x :=
  (match delayed_read_cmd s bus .ReadFirmwareVersion (List.replicate 3 0) with
   | .error e => .error e
   | .ok buf =>
     let fw := buf.getD 0 0
     let res := buf.getD 1 0
     let ck := buf.getD 2 0
     if crc [fw, res] = ck then .ok fw else .error .Crc, s)

/-- The validation loop of `measurement_raw` (src/sen5x.rs lines 114-122),
like `collect_bytes` but collecting `u16::from_be_bytes([hi, lo])`. -/
def collect_words (buf : List Nat) : Nat → Nat → Option (List Nat)
  | _, 0 => some []
  | i, k+1 =>
    let hi := buf.getD (i * 3) 0
    let lo := buf.getD (i * 3 + 1) 0
    let ck := buf.getD (i * 3 + 2) 0
    if crc [hi, lo] = ck then
      match collect_words buf (i+1) k with
      | some rest => some ((hi <<< 8 ||| lo) :: rest)
      | none => none
    else none

/-- Embeds `measurement_raw` (src/sen5x.rs lines 109-134): 24-byte read, 8
validated words, assigned positionally into `Sen5xDataRaw`. -/
def measurement_raw {E : Type} (s : Sen5x) (bus : BusCycle E) :
    Except (Error E) Sen5xDataRaw × Sen5x :=
  (match delayed_read_cmd s bus .ReadMeasurement (List.replicate 24 0) with
   | .error e => .error e
   | .ok buf =>
     match collect_words buf 0 8 with
     | some values =>
       .ok { pm1_0 := values.getD 0 0
             pm2_5 := values.getD 1 0
             pm4_0 := values.getD 2 0
             pm10_0 := values.getD 3 0
             humidity := values.getD 4 0
             temperature := values.getD 5 0
             voc_index := values.getD 6 0
             nox_index := values.getD 7 0 }
     | none => .error .Crc, s)

/-- Embeds `measurement` (src/sen5x.rs lines 137-149): `measurement_raw()?`, then
each field `as f32` divided by its scale factor. -/
def measurement {E : Type} (s : Sen5x) (bus : BusCycle E) :
    Except (Error E) Sen5xData × Sen5x :=
  (match (measurement_raw s bus).1 with
   | .error e => .error e
   | .ok data =>
     .ok { pm1_0 := f32div data.pm1_0 10
           pm2_5 := f32div data.pm2_5 10
           pm4_0 := f32div data.pm4_0 10
           pm10_0 := f32div data.pm10_0 10
           temperature := f32div data.temperature 200
           humidity := f32div data.humidity 100
           voc_index := f32div data.voc_index 10
           nox_index := f32div data.nox_index 10 }, s)

/-- Embeds `data_ready_status` (src/sen5x.rs lines 152-160): 3-byte read, status
word from the first two bytes big-endian, ready iff `status & 0x7FF != 0`.
The source performs no checksum comparison of its own in this method. -/
def data_ready_status {E : Type} (s : Sen5x) (bus : BusCycle E) :
    Except (Error E) Bool × Sen5x :=
  (match delayed_read_cmd s bus .GetReadDataReadyStatus (List.replicate 3 0) with
   | .error e => .error e
   | .ok buf =>
     let status := buf.getD 0 0 <<< 8 ||| buf.getD 1 0
     .ok ((status &&& 0x7FF) != 0), s)

/-- Embeds `start_measurement` (src/sen5x.rs lines 51-55): `write_command?`, then
set `is_running` to true. -/
def start_measurement {E : Type} (s : Sen5x) (bus : BusCycle E) :
    Except (Error E) Unit × Sen5x :=
  match write_command s bus .StartMeasurement with
  | .error e => (.error e, s)
  | .ok _ => (.ok (), { s with is_running := true })

/-- Embeds `reinit` (src/sen5x.rs lines 58-61): `write_command?`, no state change. -/
def reinit {E : Type} (s : Sen5x) (bus : BusCycle E) :
    Except (Error E) Unit × Sen5x :=
  (match write_command s bus .Reinit with
   | .error e => .error e
   | .ok _ => .ok (), s)

/-! Lemmas about the checksum. -/

theorem crcIter_testBit (c : Nat) :
    crcIter c = ((c <<< 1) % 256) ^^^ (if c.testBit 7 then 0x31 else 0) := by
  unfold crcIter
  have h : c &&& 0x80 = (c.testBit 7).toNat * 128 := by
    simpa using Nat.and_two_pow c 7
  cases ht : c.testBit 7 <;> simp [h, ht]

theorem shiftLeft_xor_dist (a b : Nat) : (a ^^^ b) <<< 1 = (a <<< 1) ^^^ (b <<< 1) := by
  apply Nat.eq_of_testBit_eq
  intro i
  simp [Nat.testBit_shiftLeft, Nat.testBit_xor, Bool.and_xor_distrib_left]

theorem mod_two_pow_xor (a b k : Nat) : (a ^^^ b) % 2^k = (a % 2^k) ^^^ (b % 2^k) := by
  apply Nat.eq_of_testBit_eq
  intro i
  simp [Nat.testBit_mod_two_pow, Nat.testBit_xor, Bool.and_xor_distrib_left]

theorem xor_mix (x y u v : Nat) : (x ^^^ u) ^^^ (y ^^^ v) = (x ^^^ y) ^^^ (u ^^^ v) := by
  rw [Nat.xor_assoc, ← Nat.xor_assoc u y v, Nat.xor_comm u y,
    Nat.xor_assoc y u v, ← Nat.xor_assoc]

/-- The inner CRC round is GF(2)-linear on the byte state. -/
theorem crcIter_linear (a b : Nat) : crcIter (a ^^^ b) = crcIter a ^^^ crcIter b := by
  rw [crcIter_testBit, crcIter_testBit, crcIter_testBit, xor_mix, shiftLeft_xor_dist,
    show (256 : Nat) = 2^8 from rfl, mod_two_pow_xor, Nat.testBit_xor]
  cases ha : a.testBit 7 <;> cases hb : b.testBit 7 <;> simp

theorem crcRounds_linear (n : Nat) (a b : Nat) :
    crcRounds n (a ^^^ b) = crcRounds n a ^^^ crcRounds n b := by
  induction n generalizing a b with
  | zero => rfl
  | succ k ih => rw [crcRounds, crcIter_linear, ih, crcRounds, crcRounds]

theorem crc_two (x0 x1 : Nat) :
    crc [x0, x1] = crcRounds 8 (crcRounds 8 (0xFF ^^^ x0) ^^^ x1) := rfl

set_option maxRecDepth 2000 in
theorem rounds_pow_ne (i : Nat) (h : i < 8) :
    crcRounds 8 (2^i) ≠ 0 ∧ crcRounds 8 (crcRounds 8 (2^i)) ≠ 0 := by
  interval_cases i <;> exact ⟨by decide, by decide⟩

theorem xor_ne_self (a t : Nat) (ht : t ≠ 0) : a ^^^ t ≠ a := by
  intro h
  apply ht
  have h2 : a ^^^ t = a ^^^ 0 := by simpa using h
  exact Nat.xor_right_injective h2

theorem crcIter_eq_spec (c : Nat) : crcIter c = crcSpecIter c := by
  unfold crcIter crcSpecIter
  have h : c &&& 0x80 = (c.testBit 7).toNat * 128 := by
    simpa using Nat.and_two_pow c 7
  have h2 : c <<< 1 = 2 * c := by rw [Nat.shiftLeft_eq, Nat.mul_comm, Nat.pow_one]
  cases ht : c.testBit 7
  · simp [h, ht, h2]
  · simp [h, ht, h2]

theorem crcRounds_eq_spec (n c : Nat) : crcRounds n c = crcSpecRounds n c := by
  induction n generalizing c with
  | zero => rfl
  | succ k ih => rw [crcRounds, crcSpecRounds, crcIter_eq_spec, ih]

theorem crc_eq_spec_from (data : List Nat) (a : Nat) :
    data.foldl (fun c b => crcRounds 8 (c ^^^ b)) a
      = data.foldl (fun c b => crcSpecRounds 8 (c ^^^ b)) a := by
  simp only [crcRounds_eq_spec]

/-! Lemmas about the frame-codec loops. -/

/-- Triple `i` of a response buffer is valid: its third byte equals the
checksum of its first two. -/
abbrev validTriple (buf : List Nat) (i : Nat) : Prop :=
  crc [buf.getD (i * 3) 0, buf.getD (i * 3 + 1) 0] = buf.getD (i * 3 + 2) 0

/-- The data bytes of triples `i, ..., i+k-1`, collected unconditionally. -/
def bytesFrom (buf : List Nat) : Nat → Nat → List Nat
  | _, 0 => []
  | i, k+1 => buf.getD (i * 3) 0 :: buf.getD (i * 3 + 1) 0 :: bytesFrom buf (i+1) k

/-- The big-endian words of triples `i, ..., i+k-1`, collected unconditionally. -/
def wordsFrom (buf : List Nat) : Nat → Nat → List Nat
  | _, 0 => []
  | i, k+1 => (buf.getD (i * 3) 0 <<< 8 ||| buf.getD (i * 3 + 1) 0) :: wordsFrom buf (i+1) k

theorem bytesFrom_length (buf : List Nat) (k : Nat) :
    ∀ i, (bytesFrom buf i k).length = 2 * k := by
  induction k with
  | zero => intro i; rfl
  | succ n ih =>
    intro i
    simp only [bytesFrom, List.length_cons, ih]
    omega

theorem wordsFrom_length (buf : List Nat) (k : Nat) :
    ∀ i, (wordsFrom buf i k).length = k := by
  induction k with
  | zero => intro i; rfl
  | succ n ih => intro i; simp only [wordsFrom, List.length_cons, ih]

theorem collect_bytes_ok (buf : List Nat) (k : Nat) :
    ∀ i, (∀ m, m < k → validTriple buf (i + m)) →
      collect_bytes buf i k = some (bytesFrom buf i k) := by
  induction k with
  | zero => intro i _; rfl
  | succ n ih =>
    intro i h
    have h0 : validTriple buf i := by
      have h2 := h 0 (Nat.succ_pos n); rwa [Nat.add_zero] at h2
    have hrest : ∀ m, m < n → validTriple buf (i + 1 + m) := fun m hm => by
      have h2 := h (m + 1) (by omega)
      rwa [show i + (m + 1) = i + 1 + m by omega] at h2
    simp only [collect_bytes, bytesFrom]
    rw [if_pos h0, ih (i+1) hrest]

theorem collect_bytes_fail (buf : List Nat) (j : Nat) :
    ∀ i k, j < k → (∀ m, m < j → validTriple buf (i + m)) →
      ¬ validTriple buf (i + j) → collect_bytes buf i k = none := by
  induction j with
  | zero =>
    intro i k hk _ hbad
    obtain ⟨k', rfl⟩ : ∃ k', k = k' + 1 := ⟨k - 1, by omega⟩
    rw [Nat.add_zero] at hbad
    simp only [collect_bytes]
    rw [if_neg hbad]
  | succ n ih =>
    intro i k hk h hbad
    obtain ⟨k', rfl⟩ : ∃ k', k = k' + 1 := ⟨k - 1, by omega⟩
    have h0 : validTriple buf i := by
      have h2 := h 0 (Nat.succ_pos n); rwa [Nat.add_zero] at h2
    have hrest : ∀ m, m < n → validTriple buf (i + 1 + m) := fun m hm => by
      have h2 := h (m + 1) (by omega)
      rwa [show i + (m + 1) = i + 1 + m by omega] at h2
    have hbad1 : ¬ validTriple buf (i + 1 + n) := by
      rwa [show i + 1 + n = i + (n + 1) by omega]
    simp only [collect_bytes]
    rw [if_pos h0, ih (i+1) k' (by omega) hrest hbad1]

theorem collect_words_ok (buf : List Nat) (k : Nat) :
    ∀ i, (∀ m, m < k → validTriple buf (i + m)) →
      collect_words buf i k = some (wordsFrom buf i k) := by
  induction k with
  | zero => intro i _; rfl
  | succ n ih =>
    intro i h
    have h0 : validTriple buf i := by
      have h2 := h 0 (Nat.succ_pos n); rwa [Nat.add_zero] at h2
    have hrest : ∀ m, m < n → validTriple buf (i + 1 + m) := fun m hm => by
      have h2 := h (m + 1) (by omega)
      rwa [show i + (m + 1) = i + 1 + m by omega] at h2
    simp only [collect_words, wordsFrom]
    rw [if_pos h0, ih (i+1) hrest]

theorem collect_words_fail (buf : List Nat) (j : Nat) :
    ∀ i k, j < k → (∀ m, m < j → validTriple buf (i + m)) →
      ¬ validTriple buf (i + j) → collect_words buf i k = none := by
  induction j with
  | zero =>
    intro i k hk _ hbad
    obtain ⟨k', rfl⟩ : ∃ k', k = k' + 1 := ⟨k - 1, by omega⟩
    rw [Nat.add_zero] at hbad
    simp only [collect_words]
    rw [if_neg hbad]
  | succ n ih =>
    intro i k hk h hbad
    obtain ⟨k', rfl⟩ : ∃ k', k = k' + 1 := ⟨k - 1, by omega⟩
    have h0 : validTriple buf i := by
      have h2 := h 0 (Nat.succ_pos n); rwa [Nat.add_zero] at h2
    have hrest : ∀ m, m < n → validTriple buf (i + 1 + m) := fun m hm => by
      have h2 := h (m + 1) (by omega)
      rwa [show i + (m + 1) = i + 1 + m by omega] at h2
    have hbad1 : ¬ validTriple buf (i + 1 + n) := by
      rwa [show i + 1 + n = i + (n + 1) by omega]
    simp only [collect_words]
    rw [if_pos h0, ih (i+1) k' (by omega) hrest hbad1]

theorem getD_range_map (f : Nat → Nat) (n i : Nat) (h : i < n) :
    ((List.range n).map f).getD i 0 = f i := by
  rw [List.getD_eq_getElem?_getD, List.getElem?_map, List.getElem?_range h]
  rfl

/-- A bus cycle whose write succeeds and whose read yields the given
response frame. -/
def busOf (bytes : List Nat) : BusCycle Unit :=
  { writeErr := none, readBytes := .ok (fun i => bytes.getD i 0) }

theorem validTriple_map_range (f : Nat → Nat) (n m : Nat) (h3 : m * 3 + 2 < n)
    (h : crc [f (m * 3), f (m * 3 + 1)] = f (m * 3 + 2)) :
    validTriple ((List.range n).map f) m := by
  show crc [_, _] = _
  rw [getD_range_map f n (m * 3) (by omega), getD_range_map f n (m * 3 + 1) (by omega),
    getD_range_map f n (m * 3 + 2) h3]
  exact h

theorem not_validTriple_map_range (f : Nat → Nat) (n m : Nat) (h3 : m * 3 + 2 < n)
    (h : crc [f (m * 3), f (m * 3 + 1)] ≠ f (m * 3 + 2)) :
    ¬ validTriple ((List.range n).map f) m := by
  intro hc
  apply h
  have hc2 : crc [((List.range n).map f).getD (m * 3) 0,
      ((List.range n).map f).getD (m * 3 + 1) 0] = ((List.range n).map f).getD (m * 3 + 2) 0 := hc
  rwa [getD_range_map f n (m * 3) (by omega), getD_range_map f n (m * 3 + 1) (by omega),
    getD_range_map f n (m * 3 + 2) h3] at hc2

theorem product_name_result {E : Type} (s : Sen5x) (f : Nat → Nat) :
    (product_name s ({ writeErr := none, readBytes := .ok f } : BusCycle E)).1
      = match collect_bytes ((List.range 48).map f) 0 16 with
        | some bytes => .ok bytes
        | none => .error .Crc := rfl

theorem measurement_raw_result {E : Type} (s : Sen5x) (f : Nat → Nat) :
    (measurement_raw s ({ writeErr := none, readBytes := .ok f } : BusCycle E)).1
      = match collect_words ((List.range 24).map f) 0 8 with
        | some values =>
          .ok { pm1_0 := values.getD 0 0
                pm2_5 := values.getD 1 0
                pm4_0 := values.getD 2 0
                pm10_0 := values.getD 3 0
                humidity := values.getD 4 0
                temperature := values.getD 5 0
                voc_index := values.getD 6 0
                nox_index := values.getD 7 0 }
        | none => .error .Crc := rfl

/-- With all 8 triples of the response valid, `measurement_raw` succeeds
with the positionally decoded big-endian words. -/
theorem measurement_raw_ok {E : Type} (s : Sen5x) (f : Nat → Nat)
    (h : ∀ m, m < 8 → crc [f (m * 3), f (m * 3 + 1)] = f (m * 3 + 2)) :
    (measurement_raw s ({ writeErr := none, readBytes := .ok f } : BusCycle E)).1
      = .ok { pm1_0 := f 0 <<< 8 ||| f 1
              pm2_5 := f 3 <<< 8 ||| f 4
              pm4_0 := f 6 <<< 8 ||| f 7
              pm10_0 := f 9 <<< 8 ||| f 10
              humidity := f 12 <<< 8 ||| f 13
              temperature := f 15 <<< 8 ||| f 16
              voc_index := f 18 <<< 8 ||| f 19
              nox_index := f 21 <<< 8 ||| f 22 } := by
  have hcoll : collect_words ((List.range 24).map f) 0 8
      = some (wordsFrom ((List.range 24).map f) 0 8) := by
    apply collect_words_ok
    intro m hm
    rw [Nat.zero_add]
    exact validTriple_map_range f 24 m (by omega) (h m hm)
  rw [measurement_raw_result, hcoll]
  rfl

/-- With a first invalid triple at index `j < 8`, `measurement_raw` fails
with a checksum error. -/
theorem measurement_raw_fail {E : Type} (s : Sen5x) (f : Nat → Nat) (j : Nat)
    (hj : j < 8) (hva : ∀ m, m < j → crc [f (m * 3), f (m * 3 + 1)] = f (m * 3 + 2))
    (hbad : crc [f (j * 3), f (j * 3 + 1)] ≠ f (j * 3 + 2)) :
    (measurement_raw s ({ writeErr := none, readBytes := .ok f } : BusCycle E)).1
      = .error .Crc := by
  have hcoll : collect_words ((List.range 24).map f) 0 8 = none := by
    apply collect_words_fail _ j 0 8 hj
    · intro m hm
      rw [Nat.zero_add]
      exact validTriple_map_range f 24 m (by omega) (hva m hm)
    · rw [Nat.zero_add]
      exact not_validTriple_map_range f 24 j (by omega) hbad
  rw [measurement_raw_result, hcoll]

/-- With all 16 triples of the response valid, `product_name` succeeds with
the 32 collected data bytes. -/
theorem product_name_ok {E : Type} (s : Sen5x) (f : Nat → Nat)
    (h : ∀ m, m < 16 → crc [f (m * 3), f (m * 3 + 1)] = f (m * 3 + 2)) :
    (product_name s ({ writeErr := none, readBytes := .ok f } : BusCycle E)).1
      = .ok (bytesFrom ((List.range 48).map f) 0 16) := by
  have hcoll : collect_bytes ((List.range 48).map f) 0 16
      = some (bytesFrom ((List.range 48).map f) 0 16) := by
    apply collect_bytes_ok
    intro m hm
    rw [Nat.zero_add]
    exact validTriple_map_range f 48 m (by omega) (h m hm)
  rw [product_name_result, hcoll]

/-- With a first invalid triple at index `j < 16`, `product_name` fails
with a checksum error. -/
theorem product_name_fail {E : Type} (s : Sen5x) (f : Nat → Nat) (j : Nat)
    (hj : j < 16) (hva : ∀ m, m < j → crc [f (m * 3), f (m * 3 + 1)] = f (m * 3 + 2))
    (hbad : crc [f (j * 3), f (j * 3 + 1)] ≠ f (j * 3 + 2)) :
    (product_name s ({ writeErr := none, readBytes := .ok f } : BusCycle E)).1
      = .error .Crc := by
  have hcoll : collect_bytes ((List.range 48).map f) 0 16 = none := by
    apply collect_bytes_fail _ j 0 16 hj
    · intro m hm
      rw [Nat.zero_add]
      exact validTriple_map_range f 48 m (by omega) (hva m hm)
    · rw [Nat.zero_add]
      exact not_validTriple_map_range f 48 j (by omega) hbad
  rw [product_name_result, hcoll]

/-! The claims. -/

/-- C3: the checksum function computes CRC-8 with polynomial 0x31, initial
value 0xFF, no reflection, no final XOR, exactly as the specification words
the per-byte loop (`crcSpec`), and `checksum [0xBE, 0xEF] = 0x92`. -/
theorem C3_checksum_algorithm :
    (∀ data : List Nat, crc data = crcSpec data) ∧ crc [0xBE, 0xEF] = 0x92 :=
  ⟨fun data => crc_eq_spec_from data 0xFF, by decide⟩

/-- C7: on the response `[0xBE,0xEF,0x92] × 3`, `serial_number` succeeds and
returns 0xBEEFBEEFBEEF, assembled big-endian from buffer positions
0,1,3,4,6,7. -/
theorem C7_serial_number_roundtrip :
    (serial_number Sen5x.new
        (busOf [0xBE, 0xEF, 0x92, 0xBE, 0xEF, 0x92, 0xBE, 0xEF, 0x92])).1
      = .ok 0xBEEFBEEFBEEF := by
  rfl

/-- C1 (code bug): a failed bus WRITE is propagated as a transport error
(first two conjuncts), but a failed bus READ in `delayed_read_cmd` is NOT:
src/sen5x.rs line 173 binds the result of `read_words_with_crc` to `_` and
returns `Ok(())`.  So on a read-step transport failure `serial_number`
returns `Ok` assembled from the untouched zero-initialised buffer (third
conjunct), and `read_firmware_version` goes on to checksum-validate the
zeroed buffer and returns a CHECKSUM error for a transport failure
(fourth conjunct, with crc [0, 0] = 0x81 ≠ 0) — both contradicting the
claim that a transport error is propagated and a checksum error never
reported for it. -/
theorem C1_read_failure_swallowed :
    (serial_number Sen5x.new
        ({ writeErr := some (), readBytes := .error () } : BusCycle Unit)).1
      = .error (.I2c ())
    ∧ (product_name Sen5x.new
        ({ writeErr := some (), readBytes := .error () } : BusCycle Unit)).1
      = .error (.I2c ())
    ∧ (serial_number Sen5x.new
        ({ writeErr := none, readBytes := .error () } : BusCycle Unit)).1
      = .ok 0
    ∧ (read_firmware_version Sen5x.new
        ({ writeErr := none, readBytes := .error () } : BusCycle Unit)).1
      = .error .Crc := by
  exact ⟨rfl, rfl, rfl, rfl⟩

/-- C2 (code bug): `serial_number` performs no checksum validation of its
own, and the checksum failure reported by `read_words_with_crc` is
discarded by `delayed_read_cmd` (src/sen5x.rs line 173), so on a response
whose third triple has a wrong checksum byte (crc [0xBE, 0xEF] = 0x92 ≠ 0x00)
it still returns the 48-bit value assembled from the unvalidated data
bytes instead of a checksum error. -/
theorem C2_serial_number_skips_crc :
    (serial_number Sen5x.new
        (busOf [0xBE, 0xEF, 0x92, 0xBE, 0xEF, 0x92, 0xBE, 0xEF, 0x00])).1
      = .ok 0xBEEFBEEFBEEF
    ∧ crc [0xBE, 0xEF] ≠ 0x00 := by
  exact ⟨rfl, by decide⟩

/-- C6: `data_ready_status` answers `false` exactly when the low 11 bits
(mask 0x7FF) of the big-endian status word of the response are all zero;
in particular status 0x0000 gives false, 0x0001 gives true, 0xF800 gives
false. -/
theorem C6_data_ready_mask :
    (∀ (E : Type) (s : Sen5x) (f : Nat → Nat),
      (data_ready_status s ({ writeErr := none, readBytes := .ok f } : BusCycle E)).1
        = .ok (((f 0 <<< 8 ||| f 1) &&& 0x7FF) != 0))
    ∧ (∀ (E : Type) (s : Sen5x) (f : Nat → Nat),
      (data_ready_status s ({ writeErr := none, readBytes := .ok f } : BusCycle E)).1
          = .ok false
        ↔ (f 0 <<< 8 ||| f 1) &&& 0x7FF = 0)
    ∧ (data_ready_status Sen5x.new (busOf [0x00, 0x00, 0x81])).1 = .ok false
    ∧ (data_ready_status Sen5x.new (busOf [0x00, 0x01, 0xB0])).1 = .ok true
    ∧ (data_ready_status Sen5x.new (busOf [0xF8, 0x00, 0xAE])).1 = .ok false := by
  refine ⟨fun E s f => rfl, ?_, rfl, rfl, rfl⟩
  intro E s f
  have h0 : ((List.range 3).map f).getD 0 0 = f 0 := getD_range_map f 3 0 (by omega)
  have h1 : ((List.range 3).map f).getD 1 0 = f 1 := getD_range_map f 3 1 (by omega)
  simp only [data_ready_status, delayed_read_cmd, write_command, h0, h1,
    Except.ok.injEq]
  constructor
  · intro h
    simpa using h.symm
  · intro h
    simp [h]

/-- C9: flipping any single one of the 16 bits of a 2-byte input changes
the computed checksum.  Bit `i` of the first byte and bit `i` of the
second byte are both covered, so all 16 positions are. -/
theorem C9_bit_flip_changes_crc (b0 b1 i : Nat) (hb0 : b0 < 256) (hb1 : b1 < 256)
    (hi : i < 8) :
    crc [b0 ^^^ 2^i, b1] ≠ crc [b0, b1] ∧ crc [b0, b1 ^^^ 2^i] ≠ crc [b0, b1] := by
  constructor
  · have key : crc [b0 ^^^ 2^i, b1]
        = crc [b0, b1] ^^^ crcRounds 8 (crcRounds 8 (2^i)) := by
      rw [crc_two, crc_two,
        show (0xFF ^^^ (b0 ^^^ 2^i)) = (0xFF ^^^ b0) ^^^ 2^i by rw [Nat.xor_assoc],
        crcRounds_linear 8 (0xFF ^^^ b0) (2^i), Nat.xor_assoc,
        Nat.xor_comm (crcRounds 8 (2^i)) b1, ← Nat.xor_assoc,
        crcRounds_linear 8 (crcRounds 8 (0xFF ^^^ b0) ^^^ b1) (crcRounds 8 (2^i))]
    rw [key]
    exact xor_ne_self _ _ (rounds_pow_ne i hi).2
  · rw [crc_two, crc_two, ← Nat.xor_assoc, crcRounds_linear]
    exact xor_ne_self _ _ (rounds_pow_ne i hi).1

/-- C9 witness: the theorem at b0 = 0xBE, b1 = 0xEF, bit 3. -/
theorem C9_bit_flip_changes_crc_witness :
    crc [0xBE ^^^ 2^3, 0xEF] ≠ crc [0xBE, 0xEF] ∧ crc [0xBE, 0xEF ^^^ 2^3] ≠ crc [0xBE, 0xEF] :=
  C9_bit_flip_changes_crc 0xBE 0xEF 3 (by decide) (by decide) (by decide)

/-- The 24-byte response frame of the repository's `test_measurement`. -/
def fixtureFrame : List Nat :=
  [0x00, 0x12, 0xA0, 0x00, 0x16, 0x64, 0x00, 0x18, 0x7B, 0x00, 0x1A, 0x19,
   0x15, 0x8A, 0x39, 0x11, 0x81, 0x50, 0x01, 0x68, 0x77, 0x00, 0x0A, 0x5A]

/-- C4: on every fully valid 24-byte response, `measurement` succeeds and
each field is the positionally decoded big-endian word divided (in f32) by
its scale factor — 10 for the particulate fields and the VOC/NOx indices,
200 for temperature, 100 for humidity; and on the literal fixture frame
the result has pm2_5 = 2.2, temperature = 22.405 and humidity = 55.14 (as
f32 values). -/
theorem C4_measurement_scaling :
    (∀ (E : Type) (s : Sen5x) (f : Nat → Nat),
      (∀ m, m < 8 → crc [f (m * 3), f (m * 3 + 1)] = f (m * 3 + 2)) →
      (measurement s ({ writeErr := none, readBytes := .ok f } : BusCycle E)).1
        = .ok { pm1_0 := f32div (f 0 <<< 8 ||| f 1) 10
                pm2_5 := f32div (f 3 <<< 8 ||| f 4) 10
                pm4_0 := f32div (f 6 <<< 8 ||| f 7) 10
                pm10_0 := f32div (f 9 <<< 8 ||| f 10) 10
                humidity := f32div (f 12 <<< 8 ||| f 13) 100
                temperature := f32div (f 15 <<< 8 ||| f 16) 200
                voc_index := f32div (f 18 <<< 8 ||| f 19) 10
                nox_index := f32div (f 21 <<< 8 ||| f 22) 10 })
    ∧ (measurement Sen5x.new (busOf fixtureFrame)).1
        = .ok { pm1_0 := f32div 18 10
                pm2_5 := f32div 22 10
                pm4_0 := f32div 24 10
                pm10_0 := f32div 26 10
                humidity := f32div 5514 100
                temperature := f32div 4481 200
                voc_index := f32div 360 10
                nox_index := f32div 10 10 }
    ∧ f32div 22 10 = roundF32 2.2
    ∧ f32div 4481 200 = roundF32 22.405
    ∧ f32div 5514 100 = roundF32 55.14 := by
  have general : ∀ (E : Type) (s : Sen5x) (f : Nat → Nat),
      (∀ m, m < 8 → crc [f (m * 3), f (m * 3 + 1)] = f (m * 3 + 2)) →
      (measurement s ({ writeErr := none, readBytes := .ok f } : BusCycle E)).1
        = .ok { pm1_0 := f32div (f 0 <<< 8 ||| f 1) 10
                pm2_5 := f32div (f 3 <<< 8 ||| f 4) 10
                pm4_0 := f32div (f 6 <<< 8 ||| f 7) 10
                pm10_0 := f32div (f 9 <<< 8 ||| f 10) 10
                humidity := f32div (f 12 <<< 8 ||| f 13) 100
                temperature := f32div (f 15 <<< 8 ||| f 16) 200
                voc_index := f32div (f 18 <<< 8 ||| f 19) 10
                nox_index := f32div (f 21 <<< 8 ||| f 22) 10 } := by
    intro E s f h
    have hm : (measurement s ({ writeErr := none, readBytes := .ok f } : BusCycle E)).1
        = match (measurement_raw s ({ writeErr := none, readBytes := .ok f } : BusCycle E)).1 with
          | .error e => .error e
          | .ok data =>
            .ok { pm1_0 := f32div data.pm1_0 10
                  pm2_5 := f32div data.pm2_5 10
                  pm4_0 := f32div data.pm4_0 10
                  pm10_0 := f32div data.pm10_0 10
                  temperature := f32div data.temperature 200
                  humidity := f32div data.humidity 100
                  voc_index := f32div data.voc_index 10
                  nox_index := f32div data.nox_index 10 } := rfl
    rw [hm, measurement_raw_ok s f h]
  refine ⟨general, ?_, ?_, ?_, ?_⟩
  · exact general Unit Sen5x.new (fun i => fixtureFrame.getD i 0) (by decide)
  · exact congrArg roundF32 (by norm_num)
  · exact congrArg roundF32 (by norm_num)
  · exact congrArg roundF32 (by norm_num)

/-- C4 witness: the general part of the theorem applied to the fixture
frame, with the eight checksum hypotheses discharged by computation. -/
theorem C4_measurement_scaling_witness :
    (measurement Sen5x.new (busOf fixtureFrame)).1
      = .ok { pm1_0 := f32div 18 10
              pm2_5 := f32div 22 10
              pm4_0 := f32div 24 10
              pm10_0 := f32div 26 10
              humidity := f32div 5514 100
              temperature := f32div 4481 200
              voc_index := f32div 360 10
              nox_index := f32div 10 10 } :=
  C4_measurement_scaling.1 Unit Sen5x.new (fun i => fixtureFrame.getD i 0) (by decide)

/-- C5: the decode loops of `product_name` and `measurement_raw` abort with
a checksum error at the first invalid triple in scan order, returning no
partial output; on a fully valid response the output has exactly the fixed
word count (32 bytes = 16 words for `product_name`; all 8 words for
`measurement_raw`). -/
theorem C5_first_mismatch_aborts :
    (∀ (E : Type) (s : Sen5x) (f : Nat → Nat) (j : Nat), j < 16 →
      (∀ m, m < j → crc [f (m * 3), f (m * 3 + 1)] = f (m * 3 + 2)) →
      crc [f (j * 3), f (j * 3 + 1)] ≠ f (j * 3 + 2) →
      (product_name s ({ writeErr := none, readBytes := .ok f } : BusCycle E)).1
        = .error .Crc)
    ∧ (∀ (E : Type) (s : Sen5x) (f : Nat → Nat),
      (∀ m, m < 16 → crc [f (m * 3), f (m * 3 + 1)] = f (m * 3 + 2)) →
      ∃ bytes, (product_name s ({ writeErr := none, readBytes := .ok f } : BusCycle E)).1
          = .ok bytes ∧ bytes.length = 32)
    ∧ (∀ (E : Type) (s : Sen5x) (f : Nat → Nat) (j : Nat), j < 8 →
      (∀ m, m < j → crc [f (m * 3), f (m * 3 + 1)] = f (m * 3 + 2)) →
      crc [f (j * 3), f (j * 3 + 1)] ≠ f (j * 3 + 2) →
      (measurement_raw s ({ writeErr := none, readBytes := .ok f } : BusCycle E)).1
        = .error .Crc)
    ∧ (∀ (E : Type) (s : Sen5x) (f : Nat → Nat),
      (∀ m, m < 8 → crc [f (m * 3), f (m * 3 + 1)] = f (m * 3 + 2)) →
      (measurement_raw s ({ writeErr := none, readBytes := .ok f } : BusCycle E)).1
        = .ok { pm1_0 := f 0 <<< 8 ||| f 1
                pm2_5 := f 3 <<< 8 ||| f 4
                pm4_0 := f 6 <<< 8 ||| f 7
                pm10_0 := f 9 <<< 8 ||| f 10
                humidity := f 12 <<< 8 ||| f 13
                temperature := f 15 <<< 8 ||| f 16
                voc_index := f 18 <<< 8 ||| f 19
                nox_index := f 21 <<< 8 ||| f 22 }) := by
  refine ⟨?_, ?_, ?_, ?_⟩
  · intro E s f j hj hva hbad
    exact product_name_fail s f j hj hva hbad
  · intro E s f h
    refine ⟨bytesFrom ((List.range 48).map f) 0 16, product_name_ok s f h, ?_⟩
    rw [bytesFrom_length]
  · intro E s f j hj hva hbad
    exact measurement_raw_fail s f j hj hva hbad
  · intro E s f h
    exact measurement_raw_ok s f h

/-- C5 witness: the four parts of the theorem at concrete frames — a frame
whose second triple is the first invalid one, and a fully valid frame of
repeated `[0xBE, 0xEF, 0x92]` triples. -/
theorem C5_first_mismatch_aborts_witness :
    (product_name Sen5x.new
        (busOf [0xBE, 0xEF, 0x92, 0xBE, 0xEF, 0x00])).1 = .error .Crc
    ∧ (∃ bytes, (product_name Sen5x.new
        (busOf ((List.replicate 16 [0xBE, 0xEF, 0x92]).flatten))).1
          = .ok bytes ∧ bytes.length = 32)
    ∧ (measurement_raw Sen5x.new
        (busOf [0xBE, 0xEF, 0x92, 0xBE, 0xEF, 0x00])).1 = .error .Crc
    ∧ (measurement_raw Sen5x.new
        (busOf ((List.replicate 8 [0xBE, 0xEF, 0x92]).flatten))).1
          = .ok { pm1_0 := 0xBEEF, pm2_5 := 0xBEEF, pm4_0 := 0xBEEF, pm10_0 := 0xBEEF
                  humidity := 0xBEEF, temperature := 0xBEEF
                  voc_index := 0xBEEF, nox_index := 0xBEEF } :=
  ⟨C5_first_mismatch_aborts.1 Unit Sen5x.new
      (fun i => [0xBE, 0xEF, 0x92, 0xBE, 0xEF, 0x00].getD i 0) 1
      (by decide) (by decide) (by decide),
   C5_first_mismatch_aborts.2.1 Unit Sen5x.new
      (fun i => ((List.replicate 16 [0xBE, 0xEF, 0x92]).flatten).getD i 0) (by decide),
   C5_first_mismatch_aborts.2.2.1 Unit Sen5x.new
      (fun i => [0xBE, 0xEF, 0x92, 0xBE, 0xEF, 0x00].getD i 0) 1
      (by decide) (by decide) (by decide),
   C5_first_mismatch_aborts.2.2.2 Unit Sen5x.new
      (fun i => ((List.replicate 8 [0xBE, 0xEF, 0x92]).flatten).getD i 0) (by decide)⟩

/-- C8: the running-state flag is false after both constructors, true after
a successful `start_measurement`, never reset to false by any operation
(every operation other than `start_measurement` leaves the whole session
state unchanged, and `start_measurement` preserves a true flag even when
its bus write fails), and no operation's result depends on the flag's
value. -/
theorem C8_running_flag :
    (Sen5x.new.is_running = false)
    ∧ (∀ a : Nat, (Sen5x.with_i2c_address a).is_running = false)
    ∧ (∀ (E : Type) (s : Sen5x) (bus : BusCycle E),
        (start_measurement s bus).1 = .ok () →
        (start_measurement s bus).2.is_running = true)
    ∧ (∀ (E : Type) (s : Sen5x) (bus : BusCycle E),
        s.is_running = true → (start_measurement s bus).2.is_running = true)
    ∧ (∀ (E : Type) (s : Sen5x) (bus : BusCycle E),
        (reinit s bus).2 = s
        ∧ (serial_number s bus).2 = s
        ∧ (product_name s bus).2 = s
        ∧ (read_firmware_version s bus).2 = s
        ∧ (measurement_raw s bus).2 = s
        ∧ (measurement s bus).2 = s
        ∧ (data_ready_status s bus).2 = s)
    ∧ (∀ (E : Type) (s : Sen5x) (bus : BusCycle E) (b : Bool),
        (start_measurement { s with is_running := b } bus).1 = (start_measurement s bus).1
        ∧ (reinit { s with is_running := b } bus).1 = (reinit s bus).1
        ∧ (serial_number { s with is_running := b } bus).1 = (serial_number s bus).1
        ∧ (product_name { s with is_running := b } bus).1 = (product_name s bus).1
        ∧ (read_firmware_version { s with is_running := b } bus).1
            = (read_firmware_version s bus).1
        ∧ (measurement_raw { s with is_running := b } bus).1 = (measurement_raw s bus).1
        ∧ (measurement { s with is_running := b } bus).1 = (measurement s bus).1
        ∧ (data_ready_status { s with is_running := b } bus).1
            = (data_ready_status s bus).1) := by
  refine ⟨rfl, fun a => rfl, ?_, ?_, fun E s bus => ⟨rfl, rfl, rfl, rfl, rfl, rfl, rfl⟩, ?_⟩
  · intro E s bus h
    rcases bus with ⟨w, r⟩
    cases w with
    | some e => simp [start_measurement, write_command] at h
    | none => rfl
  · intro E s bus h
    rcases bus with ⟨w, r⟩
    cases w with
    | some e => exact h
    | none => rfl
  · intro E s bus b
    rcases bus with ⟨w, r⟩
    cases w with
    | some e => exact ⟨rfl, rfl, rfl, rfl, rfl, rfl, rfl, rfl⟩
    | none => exact ⟨rfl, rfl, rfl, rfl, rfl, rfl, rfl, rfl⟩

/-- C8 witness: a successful `start_measurement` from the default-constructed
session sets the flag, and a session whose flag is already true keeps it
through a `start_measurement` whose bus write fails. -/
theorem C8_running_flag_witness :
    (start_measurement Sen5x.new (busOf [])).2.is_running = true
    ∧ (start_measurement { is_running := true, address := 0x69 }
        ({ writeErr := some (), readBytes := .error () } : BusCycle Unit)).2.is_running
      = true :=
  ⟨C8_running_flag.2.2.1 Unit Sen5x.new (busOf []) rfl,
   C8_running_flag.2.2.2.1 Unit { is_running := true, address := 0x69 }
     { writeErr := some (), readBytes := .error () } rfl⟩

/-- C10: whenever `product_name`, `read_firmware_version` or
`measurement_raw` returns a checksum error, the session state — the
running flag and the address — is exactly what it was before the call
(these operations never write to the session state at all). -/
theorem C10_state_unchanged_on_crc_error :
    ∀ (E : Type) (s : Sen5x) (bus : BusCycle E),
      ((product_name s bus).1 = .error .Crc →
        (product_name s bus).2.is_running = s.is_running
        ∧ (product_name s bus).2.address = s.address)
      ∧ ((read_firmware_version s bus).1 = .error .Crc →
        (read_firmware_version s bus).2.is_running = s.is_running
        ∧ (read_firmware_version s bus).2.address = s.address)
      ∧ ((measurement_raw s bus).1 = .error .Crc →
        (measurement_raw s bus).2.is_running = s.is_running
        ∧ (measurement_raw s bus).2.address = s.address) :=
  fun E s bus =>
    ⟨fun h => ⟨rfl, rfl⟩, fun h => ⟨rfl, rfl⟩, fun h => ⟨rfl, rfl⟩⟩

/-- C10 witness: a firmware-version read that fails its checksum comparison
(crc [0, 0] = 0x81 ≠ 0) leaves the default session's flag and address
unchanged. -/
theorem C10_state_unchanged_on_crc_error_witness :
    (read_firmware_version Sen5x.new (busOf [0, 0, 0])).2.is_running
        = Sen5x.new.is_running
    ∧ (read_firmware_version Sen5x.new (busOf [0, 0, 0])).2.address
        = Sen5x.new.address :=
  (C10_state_unchanged_on_crc_error Unit Sen5x.new (busOf [0, 0, 0])).2.1 rfl

end Sen5xProof
